import Mathlib

/-!
Verification of the findings/reconciliation core of the testpilot repository.

The development shallowly embeds, in Lean, the Python modules

* `services/ai-core/models/findings.py` (finding model, normalizers,
  merge/dedup, summary, quality gate),
* `services/ai-core/pr_agent/servers/job_manager.py` (in-memory job store),
* `services/ai-core/pr_agent/algo/orchestrator.py` (parallel analysis
  orchestration, branch failure recovery, fix backfill),

and proves or refutes the frozen claims about them.

Embedding conventions:

* Python strings are Lean `String`; the Python string operations used by the
  source (`lower`, `strip`, slicing, `len`, `in`, `split`) are modelled on the
  underlying character list so that they compute by structural recursion.
* Python floats are modelled as exact rationals `ℚ`.
* Dynamically-typed JSON scalars are modelled by the `Value` type; each raw
  field is consumed at the type the source requires of it, and a wrongly typed
  value makes the per-issue conversion return `.error`, modelling the
  exceptions that the batch loops catch per issue.
* Python dicts are modelled as insertion-ordered association lists; updating a
  present key replaces the entry in place, as Python dicts do.
* `hashlib.md5(...).hexdigest()[:12]` is replaced by an injective
  deterministic stand-in digest; no claim depends on the digest value itself.
-/

namespace TestPilot

/-! ### Python string primitives, modelled on the character list -/

/-- Python `s.lower()`. -/
def pyLower (s : String) : String := ⟨s.data.map Char.toLower⟩

/-- Python `s.strip()`: drop whitespace from both ends. -/
def pyStrip (s : String) : String :=
  ⟨((s.data.dropWhile Char.isWhitespace).reverse.dropWhile Char.isWhitespace).reverse⟩

/-- Python slice `s[:n]`. -/
def pyTake (s : String) (n : Nat) : String := ⟨s.data.take n⟩

/-- Python `len(s)`. -/
def pyLen (s : String) : Nat := s.data.length

/-- Python `c in s` for a single character `c`. -/
def pyContainsChar (s : String) (c : Char) : Bool := s.data.contains c

/-- Python `s.split(c)[-1]` for a single-character separator: the suffix of
`s` after its last colon. -/
def pyAfterLastColon (s : String) : String :=
  ⟨(s.data.reverse.takeWhile (fun c => c ≠ ':')).reverse⟩

/-- Python `s.replace(" ", "_")`. -/
def pyUnderscore (s : String) : String :=
  ⟨s.data.map (fun c => if c = ' ' then '_' else c)⟩

/-- Python `int(q)` on a number: truncation toward zero. -/
def pyInt (q : ℚ) : Int := q.num.tdiv q.den

/-! ### Association lists standing for Python dicts -/

/-- Python `d.get(k)` / `d[k]`: value at the first matching key. -/
def assocGet? {α β : Type} [DecidableEq α] : List (α × β) → α → Option β
  | [], _ => none
  | p :: rest, k => if p.1 = k then some p.2 else assocGet? rest k

/-- Python `d[k] = v`: replace in place when the key is present (Python dicts
keep the original insertion position), append otherwise. -/
def assocSet {α β : Type} [DecidableEq α] : List (α × β) → α → β → List (α × β)
  | [], k, v => [(k, v)]
  | p :: rest, k, v => if p.1 = k then (k, v) :: rest else p :: assocSet rest k v

/-! ### Dynamically typed raw-issue values -/

/-- A scalar field of a raw analyzer issue: `str`, `int`, or `float`. -/
inductive Value where
  | str (s : String)
  | int (n : Int)
  | rat (q : ℚ)
deriving DecidableEq

/-- A raw analyzer issue: a JSON object of scalar fields. -/
abbrev RawDict := List (String × Value)

/-- Python `issue.get(k)`. -/
def getV (d : RawDict) (k : String) : Option Value := assocGet? d k

/-- Python `str(v)` rendering, as used inside f-strings. -/
def valueToString : Value → String
  | .str s => s
  | .int n => toString n
  | .rat q => toString q

/-- Python truthiness of a scalar. -/
def truthy : Value → Bool
  | .str s => s ≠ ""
  | .int n => n ≠ 0
  | .rat q => q ≠ 0

/-- Python truthiness of a `d.get(k)` result (`None` when absent is falsy). -/
def truthyOpt : Option Value → Bool
  | some v => truthy v
  | none => false

/-- Consume a value as `str`; a non-string raises (is modelled as `.error`),
as Python does when a string method or slice is applied to it. -/
def asStr : Value → Except String String
  | .str s => .ok s
  | _ => .error "expected str"

/-- Parse the digits of a decimal numeral. -/
def digitsToNat? : List Char → Option Nat
  | [] => none
  | cs => cs.foldl (fun acc c =>
      match acc with
      | none => none
      | some n => if c.isDigit then some (n * 10 + (c.toNat - 48)) else none)
      (some 0)

/-- Python `int(v)`: ints pass through, numeric strings parse (optional sign),
floats truncate toward zero; anything else raises. -/
def intCast : Value → Except String Int
  | .int n => .ok n
  | .rat q => .ok (pyInt q)
  | .str s =>
    match s.data with
    | '-' :: cs => match digitsToNat? cs with
      | some n => .ok (-(n : Int))
      | none => .error "invalid literal for int"
    | cs => match digitsToNat? cs with
      | some n => .ok (n : Int)
      | none => .error "invalid literal for int"

/-- Python `float(v)`: numbers pass through; string parsing is outside the
model and is treated as a conversion failure. -/
def ratCast : Value → Except String ℚ
  | .int n => .ok (n : ℚ)
  | .rat q => .ok q
  | .str _ => .error "could not convert string to float"

/-! ### Finding model (`models/findings.py`) -/

/-- Source severity constants: the `FindingSeverity` enum values. -/
def severityValues : List String := ["critical", "high", "medium", "low", "info"]

/-- `GeneratedFix` dataclass. -/
structure GeneratedFix where
  original_code : String
  fixed_code : String
  explanation : String
  applicable : Bool := true
deriving DecidableEq, Inhabited

/-- `UnifiedFinding` dataclass. -/
structure UnifiedFinding where
  id : String
  source : String
  category : String
  severity : String
  file : String
  start_line : Int
  end_line : Int
  title : String
  description : String
  code_snippet : String := ""
  fix : Option GeneratedFix := none
  sonar_rule_id : Option String := none
  confidence : ℚ := 0.8
  tags : List String := []
  also_found_by : List String := []
deriving DecidableEq, Inhabited

/-- `SONAR_TYPE_MAP`: Sonar issue type to finding category. -/
def SONAR_TYPE_MAP (t : String) : Option String :=
  if t = "BUG" then some "bug"
  else if t = "VULNERABILITY" then some "security"
  else if t = "SECURITY_HOTSPOT" then some "security"
  else if t = "CODE_SMELL" then some "maintainability"
  else none

/-- `SONAR_SEVERITY_MAP`: Sonar severity to finding severity.  The source
looks the raw value up in a dict, so a non-string key simply misses. -/
def SONAR_SEVERITY_MAP (v : Value) : Option String :=
  if v = .str "BLOCKER" then some "critical"
  else if v = .str "CRITICAL" then some "critical"
  else if v = .str "MAJOR" then some "high"
  else if v = .str "MINOR" then some "medium"
  else if v = .str "INFO" then some "low"
  else none

/-- Stand-in for `hashlib.md5(key.encode()).hexdigest()[:12]`: a deterministic
digest of the key; the digest function itself is irrelevant to every claim. -/
def md5_12 (s : String) : String := s

/-- `sonar_to_unified`: convert one Sonar issue dict to a `UnifiedFinding`. -/
def sonar_to_unified (sonar_issue : RawDict) : Except String UnifiedFinding := do
  let rule_id := (getV sonar_issue "rule_id").getD ((getV sonar_issue "rule").getD (.str "unknown"))
  let line := (getV sonar_issue "line").getD ((getV sonar_issue "start_line").getD (.int 1))
  let end_lineV := (getV sonar_issue "end_line").getD line
  let finding_id := md5_12 ("sonar-" ++ valueToString rule_id ++ "-" ++
    valueToString ((getV sonar_issue "file").getD (.str "unknown")) ++ "-" ++ valueToString line)
  let sonar_type ← asStr ((getV sonar_issue "type").getD (.str "CODE_SMELL"))
  let sonar_severity := (getV sonar_issue "severity").getD (.str "MAJOR")
  let category := (SONAR_TYPE_MAP sonar_type).getD "bug"
  let severity := (SONAR_SEVERITY_MAP sonar_severity).getD "medium"
  let message? ← match getV sonar_issue "message" with
    | some v => do pure (some (← asStr v))
    | none => pure none
  let description := message?.getD ""
  let description := match getV sonar_issue "effort" with
    | some v => if truthy v then description ++ "\n\nEstimated effort: " ++ valueToString v
                else description
    | none => description
  let description := match getV sonar_issue "fix_recommendation" with
    | some v => if truthy v then description ++ "\n\nRecommendation: " ++ valueToString v
                else description
    | none => description
  let file ← asStr ((getV sonar_issue "file").getD (.str ""))
  let start_line ← intCast line
  let end_line ← intCast end_lineV
  let code_snippet ← asStr ((getV sonar_issue "code_snippet").getD
    ((getV sonar_issue "snippet").getD (.str "")))
  pure {
    id := "sonar-" ++ finding_id
    source := "sonar"
    category := category
    severity := severity
    file := file
    start_line := start_line
    end_line := end_line
    title := pyTake (message?.getD "Sonar finding") 100
    description := description
    code_snippet := code_snippet
    fix := none
    sonar_rule_id := some (valueToString rule_id)
    confidence := 0.95
    tags := [pyLower sonar_type, valueToString rule_id]
    also_found_by := [] }

/-- The `normalized` dict that `sonar_response_to_unified` builds from a raw
Rust sonar-backend issue, including the project-prefix strip on `component`. -/
def buildNormalized (issue : RawDict) : Except String RawDict := do
  let rule := (getV issue "rule").getD ((getV issue "rule_id").getD (.str "unknown"))
  let line := (getV issue "line").getD (.int 1)
  let message := (getV issue "message").getD (.str "")
  let severity := (getV issue "severity").getD (.str "MAJOR")
  let ty := (getV issue "type").getD ((getV issue "issue_type").getD (.str "CODE_SMELL"))
  let file ← asStr ((getV issue "component").getD ((getV issue "file").getD (.str "")))
  let file := if pyContainsChar file ':' then pyAfterLastColon file else file
  pure [("rule_id", rule), ("line", line), ("file", .str file),
        ("message", message), ("severity", severity), ("type", ty)]

/-- Conversion of one raw Sonar issue inside the batch loop body. -/
def convertSonarIssue (issue : RawDict) : Except String UnifiedFinding := do
  sonar_to_unified (← buildNormalized issue)

/-- A Sonar `/analyze` response: the three historical keys that may carry the
issue list. -/
structure SonarResponse where
  vulnerabilities : List RawDict := []
  issues : List RawDict := []
  findings : List RawDict := []

/-- The `or`-chained extraction of the issue list from a Sonar response. -/
def sonarIssues (r : SonarResponse) : List RawDict :=
  if r.vulnerabilities ≠ [] then r.vulnerabilities
  else if r.issues ≠ [] then r.issues
  else if r.findings ≠ [] then r.findings
  else []

/-- The body of each batch conversion loop: try one conversion, append on
success, skip (continue) on failure. -/
def convertAppend {α β : Type} (conv : α → Except String β)
    (findings : List β) (issue : α) : List β :=
  match conv issue with
  | .ok f => findings ++ [f]
  | .error _ => findings

/-- `sonar_response_to_unified`: convert each issue, skipping any issue whose
conversion raises. -/
def sonar_response_to_unified (resp : SonarResponse) : List UnifiedFinding :=
  (sonarIssues resp).foldl (convertAppend convertSonarIssue) []

/-- `AI_TYPE_MAP`: AI issue type string to finding category. -/
def AI_TYPE_MAP (t : String) : Option String :=
  if t = "bug" then some "bug"
  else if t = "error" then some "bug"
  else if t = "logic" then some "logic"
  else if t = "logical_error" then some "logic"
  else if t = "security" then some "security"
  else if t = "style" then some "style"
  else if t = "performance" then some "performance"
  else if t = "possible_bug" then some "bug"
  else if t = "possible_issue" then some "bug"
  else none

/-- `ai_to_unified`: convert one AI review issue dict to a `UnifiedFinding`. -/
def ai_to_unified (ai_issue : RawDict) : Except String UnifiedFinding := do
  let content_hash := md5_12 (
    valueToString ((getV ai_issue "file").getD (.str "")) ++ "-" ++
    valueToString ((getV ai_issue "start_line").getD (.int 0)) ++ "-" ++
    valueToString ((getV ai_issue "title").getD (.str "")))
  let ai_type ← asStr ((getV ai_issue "type").getD ((getV ai_issue "issue_header").getD (.str "issue")))
  let ai_type := pyUnderscore (pyLower ai_type)
  let category := (AI_TYPE_MAP ai_type).getD "bug"
  let severity_str ← asStr ((getV ai_issue "severity").getD (.str "medium"))
  let severity_str := pyLower severity_str
  let severity_str := if severity_str ∈ severityValues then severity_str else "medium"
  let fix ← if truthyOpt (getV ai_issue "suggestion") || truthyOpt (getV ai_issue "fixed_code") then do
      let original_code ← asStr ((getV ai_issue "original_code").getD
        ((getV ai_issue "code_snippet").getD (.str "")))
      let fixed_code ← asStr ((getV ai_issue "fixed_code").getD
        ((getV ai_issue "suggestion").getD (.str "")))
      let explanation ← asStr ((getV ai_issue "explanation").getD
        ((getV ai_issue "description").getD (.str "")))
      pure (some { original_code := original_code, fixed_code := fixed_code,
                   explanation := explanation, applicable := true : GeneratedFix })
    else pure none
  let file ← asStr ((getV ai_issue "file").getD ((getV ai_issue "relevant_file").getD (.str "")))
  let start_line ← intCast ((getV ai_issue "start_line").getD ((getV ai_issue "line").getD (.int 1)))
  let end_line ← intCast ((getV ai_issue "end_line").getD
    ((getV ai_issue "start_line").getD ((getV ai_issue "line").getD (.int 1))))
  let title ← asStr ((getV ai_issue "title").getD ((getV ai_issue "issue_header").getD (.str "Issue detected")))
  let description ← asStr ((getV ai_issue "description").getD ((getV ai_issue "issue_content").getD (.str "")))
  let code_snippet ← asStr ((getV ai_issue "code_snippet").getD (.str ""))
  let confidence ← ratCast ((getV ai_issue "confidence").getD (.rat 0.75))
  pure {
    id := "ai-" ++ content_hash
    source := "pr_agent"
    category := category
    severity := severity_str
    file := file
    start_line := start_line
    end_line := end_line
    title := pyTake title 100
    description := description
    code_snippet := code_snippet
    fix := fix
    sonar_rule_id := none
    confidence := confidence
    tags := [category, "ai-detected"]
    also_found_by := [] }

/-- An AI review response: the three historical keys that may carry the issue
list (the middle one sits under the nested `review` object in the source). -/
structure AIResponse where
  issues : List RawDict := []
  review_key_issues_to_review : List RawDict := []
  code_feedback : List RawDict := []

/-- The `or`-chained extraction of the issue list from an AI response. -/
def aiIssues (r : AIResponse) : List RawDict :=
  if r.issues ≠ [] then r.issues
  else if r.review_key_issues_to_review ≠ [] then r.review_key_issues_to_review
  else if r.code_feedback ≠ [] then r.code_feedback
  else []

/-- `ai_response_to_unified`: convert each issue, skipping any issue whose
conversion raises. -/
def ai_response_to_unified (resp : AIResponse) : List UnifiedFinding :=
  (aiIssues resp).foldl (convertAppend ai_to_unified) []

/-! ### Merge, deduplication, summary, quality gate -/

/-- `merge_findings`: plain concatenation. -/
def merge_findings (ai_findings sonar_findings : List UnifiedFinding) : List UnifiedFinding :=
  ai_findings ++ sonar_findings

/-- `normalize_for_dedup`: `text.lower().strip()[:50]`. -/
def normalize_for_dedup (text : String) : String :=
  pyTake (pyStrip (pyLower text)) 50

/-- The dedup key `(file, start_line, normalized title)`. -/
def dedupKey (f : UnifiedFinding) : String × Int × String :=
  (f.file, f.start_line, normalize_for_dedup f.title)

/-- The merge of a duplicate pair: the winner keeps its record, appends the
loser's source to `also_found_by`, and adopts the loser's fix when it has
none of its own. -/
def mergeWinner (winner loser : UnifiedFinding) : UnifiedFinding :=
  { winner with
    also_found_by := winner.also_found_by ++ [loser.source]
    fix := if loser.fix.isSome ∧ winner.fix = none then loser.fix else winner.fix }

/-- One iteration of the `deduplicate_findings` loop over the `seen` dict. -/
def dedupStep (seen : List ((String × Int × String) × UnifiedFinding))
    (finding : UnifiedFinding) : List ((String × Int × String) × UnifiedFinding) :=
  let key := dedupKey finding
  match assocGet? seen key with
  | some existing =>
    if existing.confidence < finding.confidence then
      assocSet seen key (mergeWinner finding existing)
    else
      assocSet seen key (mergeWinner existing finding)
  | none => seen ++ [(key, finding)]

/-- `deduplicate_findings`: fold the findings through the `seen` dict and
return its values. -/
def deduplicate_findings (findings : List UnifiedFinding) : List UnifiedFinding :=
  (findings.foldl dedupStep []).map Prod.snd

/-- Python `d[k] = d.get(k, 0) + 1` on a counting dict. -/
def bump (d : List (String × Nat)) (k : String) : List (String × Nat) :=
  assocSet d k ((assocGet? d k).getD 0 + 1)

/-- The summary dict built by `create_summary`. -/
structure Summary where
  total : Nat
  with_fix : Nat
  by_source : List (String × Nat)
  by_severity : List (String × Nat)
  by_category : List (String × Nat)
  quality_gate : String
deriving DecidableEq

/-- `determine_quality_gate`: failed on any critical or security finding,
warning on more than two high findings, else passed. -/
def determine_quality_gate (findings : List UnifiedFinding) : String :=
  let critical_count := findings.countP (fun f => f.severity == "critical")
  let high_count := findings.countP (fun f => f.severity == "high")
  let security_count := findings.countP (fun f => f.category == "security")
  if critical_count > 0 ∨ security_count > 0 then "failed"
  else if high_count > 2 then "warning"
  else "passed"

/-- `create_summary`: counts by source, severity and category plus the
quality gate. -/
def create_summary (findings : List UnifiedFinding) : Summary :=
  { total := findings.length
    with_fix := (findings.filter (fun f => f.fix.isSome)).length
    by_source := findings.foldl (fun d f => bump d f.source) []
    by_severity := findings.foldl (fun d f => bump d f.severity) []
    by_category := findings.foldl (fun d f => bump d f.category) []
    quality_gate := determine_quality_gate findings }

/-! ### Job store (`pr_agent/servers/job_manager.py`)

Wall-clock timestamps are environment inputs: each mutating operation takes
the current time as an explicit `now` argument. -/

/-- The `progress` sub-dict of a job. -/
structure Progress where
  current_file : String := ""
  processed : Int := 0
  total : Int := 0
  percentage : Int := 0
deriving DecidableEq

/-- One job record of the `JOBS` dict. -/
structure Job where
  status : String
  logs : List String
  progress : Progress
  result : List (String × String)
  created_at : String
  updated_at : String
deriving DecidableEq

/-- The global `JOBS` dict, keyed by job id. -/
abbrev JobStore := List (String × Job)

/-- `create_job`: insert a fresh pending job. -/
def create_job (jobs : JobStore) (job_id : String) (now : String) : JobStore × Job :=
  let job : Job := {
    status := "pending"
    logs := []
    progress := {}
    result := []
    created_at := now
    updated_at := now }
  (assocSet jobs job_id job, job)

/-- `get_job`. -/
def get_job (jobs : JobStore) (job_id : String) : Option Job :=
  assocGet? jobs job_id

/-- `update_job_status`: set the status of an existing job. -/
def update_job_status (jobs : JobStore) (job_id : String) (status : String)
    (now : String) : JobStore × Bool :=
  match assocGet? jobs job_id with
  | none => (jobs, false)
  | some job => (assocSet jobs job_id { job with status := status, updated_at := now }, true)

/-- `update_job_log`: append a log line to an existing job. -/
def update_job_log (jobs : JobStore) (job_id : String) (message : String)
    (now : String) : JobStore × Bool :=
  match assocGet? jobs job_id with
  | none => (jobs, false)
  | some job =>
    (assocSet jobs job_id { job with logs := job.logs ++ [message], updated_at := now }, true)

/-- `update_job_progress`: merge the supplied fields into the progress dict
and recompute the percentage when the (updated) total is positive. -/
def update_job_progress (jobs : JobStore) (job_id : String)
    (current_file : Option String) (processed : Option Int) (total : Option Int)
    (now : String) : JobStore × Bool :=
  match assocGet? jobs job_id with
  | none => (jobs, false)
  | some job =>
    let p : Progress := job.progress
    let p : Progress := match current_file with
      | some cf => { p with current_file := cf }
      | none => p
    let p : Progress := match processed with
      | some n => { p with processed := n }
      | none => p
    let p : Progress := match total with
      | some n => { p with total := n }
      | none => p
    let p : Progress := if p.total > 0 then
        { p with percentage := pyInt (((p.processed : ℚ) / (p.total : ℚ)) * 100) }
      else p
    (assocSet jobs job_id { job with progress := p, updated_at := now }, true)

/-- `update_job_result`: replace the result dict of an existing job. -/
def update_job_result (jobs : JobStore) (job_id : String)
    (result : List (String × String)) (now : String) : JobStore × Bool :=
  match assocGet? jobs job_id with
  | none => (jobs, false)
  | some job => (assocSet jobs job_id { job with result := result, updated_at := now }, true)

/-- `cancel_job`: unconditionally set the status to cancelled, then append the
cancellation log line. -/
def cancel_job (jobs : JobStore) (job_id : String) (now : String) : JobStore × Bool :=
  match assocGet? jobs job_id with
  | none => (jobs, false)
  | some job =>
    let jobs := assocSet jobs job_id { job with status := "cancelled" }
    ((update_job_log jobs job_id "Job Cancellation Requested by User." now).1, true)

/-- `is_job_cancelled`. -/
def is_job_cancelled (jobs : JobStore) (job_id : String) : Bool :=
  match assocGet? jobs job_id with
  | some job => job.status == "cancelled"
  | none => false

/-- `complete_job`: set status completed, store the result, log. -/
def complete_job (jobs : JobStore) (job_id : String)
    (result : List (String × String)) (now : String) : JobStore × Bool :=
  match assocGet? jobs job_id with
  | none => (jobs, false)
  | some job =>
    let jobs := assocSet jobs job_id
      { job with status := "completed", result := result, updated_at := now }
    ((update_job_log jobs job_id "Job completed successfully." now).1, true)

/-- `fail_job`: set status failed, store the error under `result["error"]`,
log. -/
def fail_job (jobs : JobStore) (job_id : String) (error : String)
    (now : String) : JobStore × Bool :=
  match assocGet? jobs job_id with
  | none => (jobs, false)
  | some job =>
    let jobs := assocSet jobs job_id
      { job with status := "failed", result := assocSet job.result "error" error,
                 updated_at := now }
    ((update_job_log jobs job_id ("Job failed: " ++ error) now).1, true)

/-! ### Orchestrator (`pr_agent/algo/orchestrator.py`)

The two analyzer branches are external async calls; each branch's outcome is
an input of the model.  Timing, logging and the HTTP/LLM transports are
environment effects outside the embedding, and the fix-generation LLM call of
the backfill pass is abstracted as a function `gen` from a finding to an
optional fix (`none` covers both no-fix responses and caught exceptions). -/

/-- Outcome of one analyzer branch as observed by the orchestrator. -/
inductive BranchOutcome where
  | ok (findings : List UnifiedFinding)
  | failed (msg : String)
  | timedOut
deriving DecidableEq

/-- The try/except around each `asyncio.wait_for`: a failed or timed-out
branch leaves the initial empty findings list in place. -/
def recoverBranch : BranchOutcome → List UnifiedFinding
  | .ok findings => findings
  | .failed _ => []
  | .timedOut => []

/-- `AnalysisOrchestrator._run_parallel_analysis`: both branches are awaited
and recovered independently. -/
def run_parallel_analysis (ai sonar : BranchOutcome) :
    List UnifiedFinding × List UnifiedFinding :=
  (recoverBranch ai, recoverBranch sonar)

/-- `AnalysisOrchestrator._generate_missing_fixes`: split on fix presence,
attempt one generation per fix-less finding, and return the fixed group
followed by the (possibly still fix-less) rest. -/
def generate_missing_fixes (gen : UnifiedFinding → Option GeneratedFix)
    (findings : List UnifiedFinding) : List UnifiedFinding :=
  let needs_fix := findings.filter (fun f => f.fix = none)
  let has_fix := findings.filter (fun f => f.fix ≠ none)
  if needs_fix = [] then findings
  else has_fix ++ needs_fix.map (fun finding =>
    match gen finding with
    | some fix => { finding with fix := some fix }
    | none => finding)

/-- The analysis result assembled at the end of `analyze` (execution time is
an environment effect and is not modelled). -/
structure AnalysisResult where
  findings : List UnifiedFinding
  summary : Summary
deriving DecidableEq

/-- `AnalysisOrchestrator.analyze` from the parallel fan-out onward: recover
both branches, merge, deduplicate, backfill fixes, summarize. -/
def analyze (ai sonar : BranchOutcome)
    (gen : UnifiedFinding → Option GeneratedFix) : AnalysisResult :=
  let branches := run_parallel_analysis ai sonar
  let all_findings := merge_findings branches.1 branches.2
  let unique_findings := deduplicate_findings all_findings
  let with_fixes := generate_missing_fixes gen unique_findings
  { findings := with_fixes, summary := create_summary with_fixes }

/-! ### Theorems -/

/-- C1: for every list of findings, the quality gate is `"failed"` iff some
finding has severity `critical` or category `security`; otherwise it is
`"warning"` iff strictly more than two findings have severity `high`;
otherwise it is `"passed"`. -/
theorem quality_gate_matches_spec (fs : List UnifiedFinding) :
    determine_quality_gate fs =
      if ∃ f ∈ fs, f.severity = "critical" ∨ f.category = "security" then "failed"
      else if 2 < fs.countP (fun f => f.severity == "high") then "warning"
      else "passed" := by
  unfold determine_quality_gate
  by_cases h : ∃ f ∈ fs, f.severity = "critical" ∨ f.category = "security"
  · rw [if_pos h, if_pos]
    rcases h with ⟨f, hf, h | h⟩
    · exact Or.inl (List.countP_pos_iff.mpr ⟨f, hf, by simp [h]⟩)
    · exact Or.inr (List.countP_pos_iff.mpr ⟨f, hf, by simp [h]⟩)
  · have hnc : ¬(fs.countP (fun f => f.severity == "critical") > 0 ∨
        fs.countP (fun f => f.category == "security") > 0) := by
      rintro (h1 | h1) <;>
        (rcases List.countP_pos_iff.mp h1 with ⟨f, hf, hp⟩; simp only [beq_iff_eq] at hp)
      · exact h ⟨f, hf, Or.inl hp⟩
      · exact h ⟨f, hf, Or.inr hp⟩
    rw [if_neg h, if_neg hnc]

/-- The raw static issue of the spec scenario. -/
def rawIssue5 : RawDict :=
  [("component", .str "proj:src/a.py"), ("line", .int 10), ("rule", .str "S6334"),
   ("severity", .str "BLOCKER"), ("type", .str "VULNERABILITY"),
   ("message", .str "secret exposed")]

/-- The Sonar response carrying only the scenario issue. -/
def resp5 : SonarResponse := { vulnerabilities := [rawIssue5] }

/-- The normalized findings of the scenario response. -/
def out5 : List UnifiedFinding := sonar_response_to_unified resp5

/-- C5: normalizing the scenario issue yields exactly one finding with
category `security`, severity `critical`, file `src/a.py`, rule id `S6334`
and confidence `0.95`, and that single finding drives the quality gate to
`"failed"`. -/
theorem sonar_scenario_drives_failed_gate :
    out5.map (fun f => (f.category, f.severity, f.file, f.sonar_rule_id))
      = [("security", "critical", "src/a.py", some "S6334")] ∧
    out5.map (fun f => f.confidence) = [0.95] ∧
    determine_quality_gate out5 = "failed" :=
  ⟨rfl, rfl, rfl⟩

/-- C4: a failed or timed-out analyzer branch contributes an empty findings
list while the other branch's findings flow through: the run's result equals
the result of a run where the failing branch returned no findings, and the
surviving output is exactly the successful branch's findings (deduplicated
and fix-backfilled, as in every run). -/
theorem branch_failure_is_isolated (fs : List UnifiedFinding) (msg : String)
    (gen : UnifiedFinding → Option GeneratedFix) :
    run_parallel_analysis (.ok fs) (.failed msg) = (fs, []) ∧
    run_parallel_analysis (.failed msg) (.ok fs) = ([], fs) ∧
    analyze (.ok fs) (.failed msg) gen = analyze (.ok fs) (.ok []) gen ∧
    analyze (.ok fs) .timedOut gen = analyze (.ok fs) (.ok []) gen ∧
    analyze (.failed msg) (.ok fs) gen = analyze (.ok []) (.ok fs) gen ∧
    analyze .timedOut (.ok fs) gen = analyze (.ok []) (.ok fs) gen ∧
    (analyze (.ok fs) (.failed msg) gen).findings
      = generate_missing_fixes gen (deduplicate_findings fs) := by
  refine ⟨rfl, rfl, ?_, ?_, rfl, rfl, ?_⟩ <;>
    simp [analyze, run_parallel_analysis, recoverBranch, merge_findings]

/-! ### Deduplication lemmas -/

/-- Every entry of the `seen` dict is stored under its own dedup key. -/
def WellKeyed (seen : List ((String × Int × String) × UnifiedFinding)) : Prop :=
  ∀ p ∈ seen, dedupKey p.2 = p.1

theorem dedupKey_mergeWinner (a b : UnifiedFinding) :
    dedupKey (mergeWinner a b) = dedupKey a := rfl

theorem dedupStep_none {seen : List ((String × Int × String) × UnifiedFinding)}
    {f : UnifiedFinding} (h : assocGet? seen (dedupKey f) = none) :
    dedupStep seen f = seen ++ [(dedupKey f, f)] := by
  simp [dedupStep, h]

theorem dedupStep_some {seen : List ((String × Int × String) × UnifiedFinding)}
    {f existing : UnifiedFinding} (h : assocGet? seen (dedupKey f) = some existing) :
    dedupStep seen f =
      if existing.confidence < f.confidence then
        assocSet seen (dedupKey f) (mergeWinner f existing)
      else assocSet seen (dedupKey f) (mergeWinner existing f) := by
  simp [dedupStep, h]

theorem assocGet?_eq_none {α β : Type} [DecidableEq α] (l : List (α × β)) (k : α) :
    assocGet? l k = none ↔ k ∉ l.map Prod.fst := by
  induction l with
  | nil => simp [assocGet?]
  | cons p rest ih =>
    by_cases h : p.1 = k
    · simp [assocGet?, h]
    · simp only [assocGet?, if_neg h, ih, List.map_cons, List.mem_cons]
      constructor
      · intro hn hc
        rcases hc with hc | hc
        · exact h hc.symm
        · exact hn hc
      · intro hn hc
        exact hn (Or.inr hc)

theorem assocGet?_mem {α β : Type} [DecidableEq α] {l : List (α × β)} {k : α} {v : β}
    (h : assocGet? l k = some v) : (k, v) ∈ l := by
  induction l with
  | nil => simp [assocGet?] at h
  | cons p rest ih =>
    by_cases hp : p.1 = k
    · simp only [assocGet?, if_pos hp] at h
      obtain rfl : p.2 = v := Option.some.inj h
      subst hp
      exact List.mem_cons_self p rest
    · simp only [assocGet?, if_neg hp] at h
      exact List.mem_cons_of_mem _ (ih h)

theorem mem_keys_of_assocGet? {α β : Type} [DecidableEq α] {l : List (α × β)} {k : α} {v : β}
    (h : assocGet? l k = some v) : k ∈ l.map Prod.fst :=
  List.mem_map.mpr ⟨(k, v), assocGet?_mem h, rfl⟩

theorem assocGet?_assocSet_self {α β : Type} [DecidableEq α] (l : List (α × β)) (k : α) (v : β) :
    assocGet? (assocSet l k v) k = some v := by
  induction l with
  | nil => simp [assocSet, assocGet?]
  | cons p rest ih => by_cases h : p.1 = k <;> simp [assocSet, assocGet?, h, ih]

theorem assocSet_map_fst_of_mem {α β : Type} [DecidableEq α] {l : List (α × β)} {k : α} (v : β)
    (h : k ∈ l.map Prod.fst) : (assocSet l k v).map Prod.fst = l.map Prod.fst := by
  induction l with
  | nil => simp at h
  | cons p rest ih =>
    by_cases hp : p.1 = k
    · simp [assocSet, hp]
    · have hr : k ∈ rest.map Prod.fst := by
        rcases List.mem_cons.mp h with h1 | h1
        · exact absurd h1.symm hp
        · exact h1
      simp [assocSet, hp, ih hr]

theorem wellKeyed_assocSet {l : List ((String × Int × String) × UnifiedFinding)}
    {k : String × Int × String} {v : UnifiedFinding}
    (hl : WellKeyed l) (hv : dedupKey v = k) : WellKeyed (assocSet l k v) := by
  induction l with
  | nil =>
    intro p hp
    simp only [assocSet, List.mem_singleton] at hp
    subst hp
    exact hv
  | cons q rest ih =>
    have hrest : WellKeyed rest := fun p hp => hl p (List.mem_cons_of_mem _ hp)
    intro p hp
    by_cases hq : q.1 = k
    · simp only [assocSet, if_pos hq, List.mem_cons] at hp
      rcases hp with rfl | hp
      · exact hv
      · exact hl p (List.mem_cons_of_mem _ hp)
    · simp only [assocSet, if_neg hq, List.mem_cons] at hp
      rcases hp with rfl | hp
      · exact hl _ (List.mem_cons_self _ _)
      · exact ih hrest p hp

theorem wellKeyed_dedupStep {seen : List ((String × Int × String) × UnifiedFinding)}
    (h : WellKeyed seen) (f : UnifiedFinding) : WellKeyed (dedupStep seen f) := by
  cases hg : assocGet? seen (dedupKey f) with
  | none =>
    rw [dedupStep_none hg]
    intro p hp
    rcases List.mem_append.mp hp with hp | hp
    · exact h p hp
    · simp only [List.mem_singleton] at hp
      subst hp
      rfl
  | some existing =>
    have hex : dedupKey existing = dedupKey f := h _ (assocGet?_mem hg)
    rw [dedupStep_some hg]
    split
    · exact wellKeyed_assocSet h (dedupKey_mergeWinner f existing)
    · exact wellKeyed_assocSet h ((dedupKey_mergeWinner existing f).trans hex)

theorem nodup_keys_dedupStep {seen : List ((String × Int × String) × UnifiedFinding)}
    (h : (seen.map Prod.fst).Nodup) (f : UnifiedFinding) :
    ((dedupStep seen f).map Prod.fst).Nodup := by
  cases hg : assocGet? seen (dedupKey f) with
  | none =>
    have hk : dedupKey f ∉ seen.map Prod.fst := (assocGet?_eq_none _ _).mp hg
    rw [dedupStep_none hg]
    simpa [List.nodup_append] using
      ⟨h, fun x hmem => hk (List.mem_map_of_mem Prod.fst hmem)⟩
  | some existing =>
    rw [dedupStep_some hg]
    split <;> (rw [assocSet_map_fst_of_mem _ (mem_keys_of_assocGet? hg)]; exact h)

theorem keys_subset_dedupStep (seen : List ((String × Int × String) × UnifiedFinding))
    (f : UnifiedFinding) : seen.map Prod.fst ⊆ (dedupStep seen f).map Prod.fst := by
  cases hg : assocGet? seen (dedupKey f) with
  | none =>
    rw [dedupStep_none hg]
    intro k hk
    simp only [List.map_append]
    exact List.mem_append_left _ hk
  | some existing =>
    rw [dedupStep_some hg]
    split <;> (rw [assocSet_map_fst_of_mem _ (mem_keys_of_assocGet? hg)]; exact fun _ hk => hk)

theorem key_mem_dedupStep (seen : List ((String × Int × String) × UnifiedFinding))
    (f : UnifiedFinding) : dedupKey f ∈ (dedupStep seen f).map Prod.fst := by
  cases hg : assocGet? seen (dedupKey f) with
  | none =>
    rw [dedupStep_none hg]
    simp
  | some existing =>
    have hk := mem_keys_of_assocGet? hg
    rw [dedupStep_some hg]
    split <;> (rw [assocSet_map_fst_of_mem _ hk]; exact hk)

theorem wellKeyed_foldl (fs : List UnifiedFinding)
    (seen : List ((String × Int × String) × UnifiedFinding)) (h : WellKeyed seen) :
    WellKeyed (fs.foldl dedupStep seen) := by
  induction fs generalizing seen with
  | nil => exact h
  | cons f rest ih => exact ih _ (wellKeyed_dedupStep h f)

theorem nodup_keys_foldl (fs : List UnifiedFinding)
    (seen : List ((String × Int × String) × UnifiedFinding))
    (h : (seen.map Prod.fst).Nodup) : ((fs.foldl dedupStep seen).map Prod.fst).Nodup := by
  induction fs generalizing seen with
  | nil => exact h
  | cons f rest ih => exact ih _ (nodup_keys_dedupStep h f)

theorem keys_subset_foldl (fs : List UnifiedFinding)
    (seen : List ((String × Int × String) × UnifiedFinding)) :
    seen.map Prod.fst ⊆ (fs.foldl dedupStep seen).map Prod.fst := by
  induction fs generalizing seen with
  | nil => exact fun _ hk => hk
  | cons f rest ih => exact fun k hk => ih (dedupStep seen f) (keys_subset_dedupStep seen f hk)

theorem key_mem_foldl (fs : List UnifiedFinding)
    (seen : List ((String × Int × String) × UnifiedFinding)) (f : UnifiedFinding)
    (hf : f ∈ fs) : dedupKey f ∈ (fs.foldl dedupStep seen).map Prod.fst := by
  induction fs generalizing seen with
  | nil => cases hf
  | cons a rest ih =>
    rcases List.mem_cons.mp hf with rfl | hf
    · exact keys_subset_foldl rest (dedupStep seen f) (key_mem_dedupStep seen f)
    · exact ih _ hf

/-- Evaluation of deduplication on a two-element duplicate pair. -/
theorem dedup_pair_eval (f g : UnifiedFinding) (hk : dedupKey f = dedupKey g) :
    deduplicate_findings [f, g] =
      if f.confidence < g.confidence then [mergeWinner g f] else [mergeWinner f g] := by
  have h1 : dedupStep [] f = [(dedupKey f, f)] := rfl
  have e1 : assocGet? [(dedupKey f, f)] (dedupKey g) = some f := by
    simp [assocGet?, hk]
  have h2 : dedupStep [(dedupKey f, f)] g =
      if f.confidence < g.confidence then [(dedupKey g, mergeWinner g f)]
      else [(dedupKey g, mergeWinner f g)] := by
    simp only [dedupStep, e1]
    split <;> simp [assocSet, hk]
  show ([f, g].foldl dedupStep []).map Prod.snd = _
  rw [List.foldl_cons, List.foldl_cons, List.foldl_nil, h1, h2]
  split <;> rfl

/-- C2: on a duplicate pair, deduplication keeps the finding with strictly
higher confidence, appends the loser's source to the winner's
`also_found_by`, lets the winner adopt the loser's fix when the winner has
none, and on equal confidence keeps the earlier-seen finding while still
appending the later finding's source. -/
theorem dedup_confidence_tie_break (f g : UnifiedFinding)
    (hk : dedupKey f = dedupKey g) :
    (f.confidence < g.confidence →
      deduplicate_findings [f, g] =
        [{ g with also_found_by := g.also_found_by ++ [f.source],
                  fix := if f.fix.isSome ∧ g.fix = none then f.fix else g.fix }]) ∧
    (g.confidence < f.confidence →
      deduplicate_findings [f, g] =
        [{ f with also_found_by := f.also_found_by ++ [g.source],
                  fix := if g.fix.isSome ∧ f.fix = none then g.fix else f.fix }]) ∧
    (f.confidence = g.confidence →
      deduplicate_findings [f, g] =
        [{ f with also_found_by := f.also_found_by ++ [g.source],
                  fix := if g.fix.isSome ∧ f.fix = none then g.fix else f.fix }]) := by
  rw [dedup_pair_eval f g hk]
  refine ⟨fun h => ?_, fun h => ?_, fun h => ?_⟩
  · rw [if_pos h]
    rfl
  · rw [if_neg (not_lt.mpr h.le)]
    rfl
  · rw [if_neg (not_lt.mpr h.ge)]
    rfl

/-- A static-analyzer finding with high confidence and no fix. -/
def findA : UnifiedFinding :=
  { id := "a1", source := "sonar", category := "security", severity := "high",
    file := "m.py", start_line := 3, end_line := 3, title := "SQL Injection risk",
    description := "d", code_snippet := "", fix := none,
    sonar_rule_id := some "S1", confidence := 0.95, tags := [], also_found_by := [] }

/-- A semantic-reviewer finding with lower confidence and a fix, whose title
normalizes to the same dedup key as `findA`. -/
def findB : UnifiedFinding :=
  { id := "b1", source := "pr_agent", category := "security", severity := "high",
    file := "m.py", start_line := 3, end_line := 3, title := "  SQL INJECTION RISK ",
    description := "x", code_snippet := "",
    fix := some { original_code := "o", fixed_code := "n", explanation := "e" },
    sonar_rule_id := none, confidence := 0.75, tags := [], also_found_by := [] }

theorem dedup_confidence_tie_break_witness :
    deduplicate_findings [findB, findA] =
      [{ findA with also_found_by := findA.also_found_by ++ [findB.source],
                    fix := if findB.fix.isSome ∧ findA.fix = none then findB.fix
                           else findA.fix }] :=
  (dedup_confidence_tie_break findB findA rfl).1
    (by show (0.75 : ℚ) < 0.95; norm_num)

/-- C6 counterexample ingredients: three findings sharing one dedup key with
strictly increasing confidence. -/
def cxA : UnifiedFinding :=
  { id := "c1", source := "sonar", category := "bug", severity := "low",
    file := "x.py", start_line := 1, end_line := 1, title := "dup",
    description := "", code_snippet := "", fix := none, sonar_rule_id := none,
    confidence := 0.5, tags := [], also_found_by := [] }

def cxB : UnifiedFinding :=
  { cxA with id := "c2", source := "manual", confidence := 0.7 }

def cxC : UnifiedFinding :=
  { cxA with id := "c3", source := "pr_agent", confidence := 0.9 }

/-- C6 counterexample: with three findings on one key, the pair `(cxA, cxC)`
shares the dedup key and `cxC` survives, yet `cxA`'s source is not recorded
in the survivor's `also_found_by` (it was displaced together with the
intermediate winner `cxB`). -/
theorem dedup_drops_displaced_source :
    deduplicate_findings [cxA, cxB, cxC] = [{ cxC with also_found_by := ["manual"] }] ∧
    dedupKey cxA = dedupKey cxC ∧
    cxA.source ∉ ({ cxC with also_found_by := ["manual"] } : UnifiedFinding).also_found_by := by
  refine ⟨?_, rfl, by decide⟩
  have s1 : dedupStep [] cxA = [(dedupKey cxA, cxA)] := rfl
  have e2 : assocGet? [(dedupKey cxA, cxA)] (dedupKey cxB) = some cxA := rfl
  have s2 : dedupStep [(dedupKey cxA, cxA)] cxB = [(dedupKey cxB, mergeWinner cxB cxA)] := by
    rw [dedupStep_some e2, if_pos (show cxA.confidence < cxB.confidence by
      show (0.5 : ℚ) < 0.7; norm_num)]
    rfl
  have e3 : assocGet? [(dedupKey cxB, mergeWinner cxB cxA)] (dedupKey cxC)
      = some (mergeWinner cxB cxA) := rfl
  have s3 : dedupStep [(dedupKey cxB, mergeWinner cxB cxA)] cxC
      = [(dedupKey cxC, mergeWinner cxC (mergeWinner cxB cxA))] := by
    rw [dedupStep_some e3, if_pos (show (mergeWinner cxB cxA).confidence < cxC.confidence by
      show (0.7 : ℚ) < 0.9; norm_num)]
    rfl
  show ([cxA, cxB, cxC].foldl dedupStep []).map Prod.snd = _
  rw [List.foldl_cons, List.foldl_cons, List.foldl_cons, List.foldl_nil, s1, s2, s3]
  rfl

/-- C6 amended: after deduplication no two findings share a dedup key; every
input finding's key is represented by exactly one surviving finding; and on a
key shared by exactly two findings the loser's source is recorded in the
survivor's `also_found_by`.  (With three or more findings on one key, sources
of findings displaced before the final winner appeared can be lost, as the
counterexample shows.) -/
theorem dedup_key_uniqueness_and_coverage (fs : List UnifiedFinding) :
    (deduplicate_findings fs).Pairwise (fun a b => dedupKey a ≠ dedupKey b) ∧
    (∀ f ∈ fs, ∃ g ∈ deduplicate_findings fs, dedupKey g = dedupKey f) ∧
    (∀ f g, dedupKey f = dedupKey g →
      deduplicate_findings [f, g] =
        if f.confidence < g.confidence then [mergeWinner g f] else [mergeWinner f g]) := by
  have hW : WellKeyed (fs.foldl dedupStep []) := wellKeyed_foldl fs [] (by intro p hp; cases hp)
  have hN : ((fs.foldl dedupStep []).map Prod.fst).Nodup :=
    nodup_keys_foldl fs [] List.nodup_nil
  refine ⟨?_, ?_, fun f g hk => dedup_pair_eval f g hk⟩
  · unfold deduplicate_findings
    rw [List.pairwise_map]
    rw [List.Nodup, List.pairwise_map] at hN
    exact hN.imp_of_mem (fun {p q} hp hq hne => by
      rw [hW p hp, hW q hq]
      exact hne)
  · intro f hf
    have hk := key_mem_foldl fs [] f hf
    rcases List.mem_map.mp hk with ⟨p, hp, hpeq⟩
    exact ⟨p.2, List.mem_map_of_mem Prod.snd hp, (hW p hp).trans hpeq⟩

theorem dedup_key_uniqueness_and_coverage_witness :
    deduplicate_findings [findB, findA] =
      if findB.confidence < findA.confidence then [mergeWinner findA findB]
      else [mergeWinner findB findA] :=
  (dedup_key_uniqueness_and_coverage []).2.2 findB findA rfl

/-! ### Job store theorems -/

/-- A job record with the given status and otherwise fresh fields. -/
def jobT (status : String) : Job :=
  { status := status, logs := [], progress := {}, result := [],
    created_at := "t0", updated_at := "t0" }

/-- C3 counterexample: `cancel_job` on a job whose status is the terminal
`"completed"` mutates it: the stored status becomes `"cancelled"`, so a
terminal job is neither immune to mutation nor is cancel a no-op on it. -/
theorem cancel_overwrites_completed_status :
    (assocGet? [("j", jobT "completed")] "j").map Job.status = some "completed" ∧
    (assocGet? (cancel_job [("j", jobT "completed")] "j" "t1").1 "j").map Job.status
      = some "cancelled" :=
  ⟨rfl, rfl⟩

/-- C3 amended: `cancel_job` on an existing job unconditionally sets its
status to `"cancelled"` (and reports success), whatever the previous status,
terminal or not; only a job already cancelled keeps its status value
unchanged.  Likewise `update_job_status` overwrites any previous status. -/
theorem cancel_always_sets_cancelled (jobs : JobStore) (id now : String) (j : Job)
    (h : assocGet? jobs id = some j) :
    (assocGet? (cancel_job jobs id now).1 id).map Job.status = some "cancelled" ∧
    (cancel_job jobs id now).2 = true ∧
    (∀ s, (assocGet? (update_job_status jobs id s now).1 id).map Job.status = some s) := by
  refine ⟨?_, ?_, fun s => ?_⟩
  · simp [cancel_job, h, update_job_log, assocGet?_assocSet_self]
  · simp [cancel_job, h]
  · simp [update_job_status, h, assocGet?_assocSet_self]

theorem cancel_always_sets_cancelled_witness :
    (assocGet? (cancel_job [("j", jobT "failed")] "j" "t1").1 "j").map Job.status
      = some "cancelled" ∧
    (assocGet? (update_job_status [("j", jobT "failed")] "j" "processing" "t1").1 "j").map
      Job.status = some "processing" :=
  ⟨(cancel_always_sets_cancelled [("j", jobT "failed")] "j" "t1" (jobT "failed") rfl).1,
   (cancel_always_sets_cancelled [("j", jobT "failed")] "j" "t1" (jobT "failed") rfl).2.2
     "processing"⟩

/-- C8 counterexample: updating progress with `processed = 5, total = 2`
stores percentage `250`, which lies outside `[0, 100]`: the recomputed
percentage is not clamped. -/
theorem progress_percentage_not_clamped :
    (assocGet? (update_job_progress [("j", jobT "processing")] "j" none (some 5) (some 2)
        "t1").1 "j").map (fun j2 => j2.progress.percentage) = some 250 ∧
    ¬((250 : Int) ≤ 100) := by
  constructor
  · simp only [update_job_progress, assocGet?, if_pos rfl, Option.map_some]
    norm_num [assocSet, assocGet?, jobT, pyInt]
  · decide

/-- C8 amended: for an existing job, `update_job_progress` stores the
supplied `processed`/`total` values and recomputes the percentage as
`int(processed / total * 100)` exactly when the updated total is positive,
leaving the old percentage otherwise; the recomputed value is not clamped
and may lie outside `[0, 100]`. -/
theorem progress_percentage_recompute (jobs : JobStore) (id now : String)
    (cf : Option String) (proc tot : Option Int) (j : Job)
    (h : assocGet? jobs id = some j) :
    ((0 : Int) < tot.getD j.progress.total →
      (assocGet? (update_job_progress jobs id cf proc tot now).1 id).map
        (fun j2 => j2.progress.percentage)
        = some (pyInt (((proc.getD j.progress.processed : Int) : ℚ) /
            ((tot.getD j.progress.total : Int) : ℚ) * 100))) ∧
    (¬ (0 : Int) < tot.getD j.progress.total →
      (assocGet? (update_job_progress jobs id cf proc tot now).1 id).map
        (fun j2 => j2.progress.percentage) = some j.progress.percentage) ∧
    (assocGet? (update_job_progress jobs id cf proc tot now).1 id).map
      (fun j2 => (j2.progress.processed, j2.progress.total))
      = some (proc.getD j.progress.processed, tot.getD j.progress.total) := by
  refine ⟨fun hpos => ?_, fun hneg => ?_, ?_⟩ <;>
    cases cf <;> cases proc <;> cases tot <;>
      simp_all [update_job_progress, assocGet?_assocSet_self] <;>
      split <;> first | rfl | (exfalso; omega) | simp_all

theorem progress_percentage_recompute_witness :
    (assocGet? (update_job_progress [("j", jobT "processing")] "j" none (some 5) (some 2)
        "t2").1 "j").map (fun j2 => j2.progress.percentage)
      = some (pyInt (((5 : Int) : ℚ) / ((2 : Int) : ℚ) * 100)) :=
  (progress_percentage_recompute [("j", jobT "processing")] "j" "t2" none (some 5) (some 2)
    (jobT "processing") rfl).1 (by decide)

/-! ### Normalizer theorems -/

theorem pyLen_pyTake_le (s : String) (n : Nat) : pyLen (pyTake s n) ≤ n := by
  simp [pyLen, pyTake]

/-- An AI raw issue that supplies an end line strictly before its start
line. -/
def rawIssue9 : RawDict :=
  [("file", .str "a.py"), ("start_line", .int 10), ("end_line", .int 2),
   ("title", .str "t"), ("type", .str "bug"), ("severity", .str "high"),
   ("description", .str "d")]

/-- The finding the AI normalizer produces for `rawIssue9`. -/
def f9 : UnifiedFinding := (ai_to_unified rawIssue9).toOption.getD default

/-- A Sonar raw issue that supplies an end line strictly before its start
line. -/
def rawIssue9s : RawDict :=
  [("file", .str "a.py"), ("line", .int 10), ("end_line", .int 2),
   ("message", .str "m")]

/-- The finding the Sonar normalizer produces for `rawIssue9s`. -/
def f9s : UnifiedFinding := (sonar_to_unified rawIssue9s).toOption.getD default

/-- C9 counterexample: both normalizers pass a raw `end_line` through
unchecked, so a raw issue with `end_line = 2` and start line `10` converts
successfully into a finding violating `end_line ≥ start_line`. -/
theorem normalizer_allows_end_before_start :
    (ai_to_unified rawIssue9).toOption = some f9 ∧
    f9.start_line = 10 ∧ f9.end_line = 2 ∧
    (sonar_to_unified rawIssue9s).toOption = some f9s ∧
    f9s.start_line = 10 ∧ f9s.end_line = 2 :=
  ⟨rfl, rfl, rfl, rfl, rfl, rfl⟩

/-- C9 amended: each normalizer defaults the end line to the start line, so
`end_line = start_line` (hence `end ≥ start`) holds whenever the raw issue
does not supply an `end_line` field; a supplied `end_line` is stored
unchecked and may lie before the start line. -/
theorem normalizer_end_defaults_to_start (issue : RawDict) (f g : UnifiedFinding)
    (h1 : getV issue "end_line" = none) :
    (sonar_to_unified issue = .ok f → f.end_line = f.start_line) ∧
    (ai_to_unified issue = .ok g → g.end_line = g.start_line) := by
  constructor
  · intro hok
    simp only [sonar_to_unified, h1, Option.getD_none, bind, Except.bind,
      pure, Except.pure] at hok
    repeat' split at hok
    all_goals simp_all
    all_goals (subst hok; simp_all)
  · intro hok
    simp only [ai_to_unified, h1, Option.getD_none, bind, Except.bind,
      pure, Except.pure] at hok
    repeat' split at hok
    all_goals simp_all
    all_goals (subst hok; simp_all)

/-- A Sonar raw issue without an `end_line` field. -/
def rawIssue9w : RawDict := [("file", .str "w.py"), ("line", .int 7), ("message", .str "m")]

/-- The finding the Sonar normalizer produces for `rawIssue9w`. -/
def f9w : UnifiedFinding := (sonar_to_unified rawIssue9w).toOption.getD default

/-- The finding the AI normalizer produces for `rawIssue9w`. -/
def g9w : UnifiedFinding := (ai_to_unified rawIssue9w).toOption.getD default

theorem normalizer_end_defaults_to_start_witness :
    f9w.end_line = f9w.start_line ∧ g9w.end_line = g9w.start_line :=
  ⟨(normalizer_end_defaults_to_start rawIssue9w f9w g9w rfl).1 rfl,
   (normalizer_end_defaults_to_start rawIssue9w f9w g9w rfl).2 rfl⟩

/-- C10: both normalizers truncate the raw message/title to its first 100
characters, so every produced finding has a title of at most 100
characters. -/
theorem normalizer_truncates_title (issue : RawDict) (f g : UnifiedFinding) :
    (sonar_to_unified issue = .ok f → pyLen f.title ≤ 100) ∧
    (ai_to_unified issue = .ok g → pyLen g.title ≤ 100) := by
  constructor
  · intro hok
    simp only [sonar_to_unified, bind, Except.bind, pure, Except.pure] at hok
    repeat' split at hok
    all_goals simp_all [pyLen_pyTake_le]
    all_goals (subst hok; simp_all [pyLen_pyTake_le])
  · intro hok
    simp only [ai_to_unified, bind, Except.bind, pure, Except.pure] at hok
    repeat' split at hok
    all_goals simp_all [pyLen_pyTake_le]
    all_goals (subst hok; simp_all [pyLen_pyTake_le])

theorem normalizer_truncates_title_witness :
    pyLen f9w.title ≤ 100 ∧ pyLen g9w.title ≤ 100 :=
  ⟨(normalizer_truncates_title rawIssue9w f9w g9w).1 rfl,
   (normalizer_truncates_title rawIssue9w f9w g9w).2 rfl⟩

/-- The `findings.append` loop over fallible conversions equals a
`filterMap` over the per-issue conversions. -/
theorem foldl_try_append {α β : Type} (conv : α → Except String β) (l : List α)
    (acc : List β) :
    l.foldl (convertAppend conv) acc
      = acc ++ l.filterMap (fun i => (conv i).toOption) := by
  induction l generalizing acc with
  | nil => simp
  | cons a rest ih =>
    cases hc : conv a <;>
      simp [List.foldl_cons, convertAppend, hc, ih, List.filterMap_cons, Except.toOption]

/-- C7: on every analyzer response, each batch normalizer returns the list of
exactly the per-issue conversions that succeed, in order — a malformed issue
is skipped while every well-formed issue in the batch is still converted (and
the batch function is total, so no error propagates out of it). -/
theorem normalizers_skip_malformed (rs : SonarResponse) (ra : AIResponse) :
    sonar_response_to_unified rs
      = (sonarIssues rs).filterMap (fun i => (convertSonarIssue i).toOption) ∧
    ai_response_to_unified ra
      = (aiIssues ra).filterMap (fun i => (ai_to_unified i).toOption) ∧
    (∀ i ∈ sonarIssues rs, ∀ f, convertSonarIssue i = .ok f →
      f ∈ sonar_response_to_unified rs) ∧
    (∀ i ∈ aiIssues ra, ∀ f, ai_to_unified i = .ok f →
      f ∈ ai_response_to_unified ra) := by
  have h1 : sonar_response_to_unified rs
      = (sonarIssues rs).filterMap (fun i => (convertSonarIssue i).toOption) := by
    unfold sonar_response_to_unified
    rw [foldl_try_append]
    simp
  have h2 : ai_response_to_unified ra
      = (aiIssues ra).filterMap (fun i => (ai_to_unified i).toOption) := by
    unfold ai_response_to_unified
    rw [foldl_try_append]
    simp
  refine ⟨h1, h2, fun i hi f hf => ?_, fun i hi f hf => ?_⟩
  · rw [h1]
    exact List.mem_filterMap.mpr ⟨i, hi, by rw [hf]; rfl⟩
  · rw [h2]
    exact List.mem_filterMap.mpr ⟨i, hi, by rw [hf]; rfl⟩

/-- A malformed AI raw issue: its `type` field is not a string, so the
conversion raises (and the batch loop skips it). -/
def rawIssueBad : RawDict := [("type", .int 3)]

/-- An AI response holding one malformed and one well-formed issue. -/
def aiRespW : AIResponse := { issues := [rawIssueBad, rawIssue9w] }

theorem normalizers_skip_malformed_witness :
    ai_to_unified rawIssueBad = .error "expected str" ∧
    g9w ∈ ai_response_to_unified aiRespW :=
  ⟨rfl, (normalizers_skip_malformed {} aiRespW).2.2.2 rawIssue9w (by decide) g9w rfl⟩

end TestPilot
